import Mathlib

/-!
# Verification of the octohook handler registry and dispatch engine

Shallow embedding of `octohook/decorators.py` (class `_WebhookDecorator`),
`octohook/__init__.py` (`reset`) and the enumerations of
`octohook/events.py` (`WebhookEvent`, `WebhookEventAction`).

Modelling decisions, each justified against the Python source:

* `WebhookEvent` and `WebhookEventAction` are Python `Enum`s whose members
  are in bijection with their string values; `WebhookEvent(s)` /
  `WebhookEventAction(s)` raise `ValueError` exactly when `s` is not one of
  the listed values.  We represent a member by its value string and record
  the value sets as `validEvents` / `validActions` (transcribed verbatim
  from `events.py`).

* The registry `self.handlers` is a `defaultdict` of `defaultdict`s of
  `defaultdict(set)`: semantically a total map from
  (event, action-level key, repo) to a set of handler objects, defaulting
  to the empty set.  The action-level key is either a `WebhookEventAction`
  member, the string `ANY_ACTION = "*"`, or the string `DEBUG = "debug"`;
  an enum member is never equal to a string, so the three kinds of keys are
  disjoint — `ActionKey` below.  Handler objects (the `wrapper` closures,
  one fresh object per registration call) are represented by `Nat` ids.

* `if action_handlers[DEBUG]:` (decorators.py line 108) tests whether the
  second-level dict stored under `DEBUG` has any key.  Keys appear under
  `DEBUG` only at lines 57/60, i.e. on a `debug=True` registration (the
  reads at lines 110-111 run only after the test already succeeded, and
  line 108 itself installs an *empty*, hence falsy, dict).  We therefore
  track the events for which a debug-cell insertion happened in
  `debugEvents`.

* `payload["repository"]["full_name"]` (line 98) raises `KeyError` when the
  path is absent; `Payload.repository` is that path as an `Option`.
  `payload.get("action")` is `Payload.action`.

* A Python `set` of handlers is a duplicate-free collection; we model it
  as a duplicate-free `List Nat` with `setAdd` (`set.add`: no-op on a
  member already present) and `setUnion` (`set.copy()` + `set.update`).
  The list order stands in for the set's unspecified iteration order.

* Exceptions escaping `handle_webhook` are the `Except.error` results of
  `candidateHandlers`; the per-handler `try/except` loop (lines 113-119)
  is `invokeAll`, total in the handlers' own behaviour.
-/

namespace Octohook

/-- `ANY_REPO = "*"` (decorators.py line 11). -/
def ANY_REPO : String := "*"

/-- The value strings of the `WebhookEvent` enum (events.py lines 911-992).
`WebhookEvent(s)` succeeds exactly when `s` is in this list. -/
def validEvents : List String :=
  [ "branch_protection_configuration"
  , "branch_protection_rule"
  , "check_run"
  , "check_suite"
  , "code_scanning_alert"
  , "commit_comment"
  , "create"
  , "custom_property"
  , "custom_property_values"
  , "delete"
  , "dependabot_alert"
  , "deploy_key"
  , "deployment"
  , "deployment_protection_rule"
  , "deployment_review"
  , "deployment_status"
  , "discussion"
  , "discussion_comment"
  , "fork"
  , "github_app_authorization"
  , "gollum"
  , "installation"
  , "installation_repositories"
  , "installation_target"
  , "issue_comment"
  , "issues"
  , "label"
  , "marketplace_purchase"
  , "member"
  , "membership"
  , "merge_group"
  , "meta"
  , "milestone"
  , "org_block"
  , "organization"
  , "package"
  , "page_build"
  , "personal_access_token_request"
  , "ping"
  , "project_card"
  , "project"
  , "project_column"
  , "projects_v2"
  , "projects_v2_item"
  , "projects_v2_status_update"
  , "public"
  , "pull_request"
  , "pull_request_review_comment"
  , "pull_request_review"
  , "pull_request_review_thread"
  , "push"
  , "registry_package"
  , "release"
  , "repository_advisory"
  , "repository"
  , "repository_dispatch"
  , "repository_import"
  , "repository_ruleset"
  , "repository_vulnerability_alert"
  , "secret_scanning_alert"
  , "secret_scanning_alert_location"
  , "secret_scanning_scan"
  , "security_advisory"
  , "security_and_analysis"
  , "sponsorship"
  , "star"
  , "status"
  , "sub_issues"
  , "team_add"
  , "team"
  , "watch"
  , "workflow_dispatch"
  , "workflow_job"
  , "workflow_run" ]

/-- The value strings of the `WebhookEventAction` enum (events.py lines
993-1085).  `WebhookEventAction(s)` succeeds exactly when `s` is listed. -/
def validActions : List String :=
  [ "added"
  , "added_to_repository"
  , "archived"
  , "assigned"
  , "blocked"
  , "cancelled"
  , "changed"
  , "closed"
  , "completed"
  , "converted"
  , "converted_to_draft"
  , "create"
  , "created"
  , "deleted"
  , "demilestoned"
  , "dismiss"
  , "dismissed"
  , "edited"
  , "labeled"
  , "locked"
  , "member_added"
  , "member_invited"
  , "member_removed"
  , "milestoned"
  , "moved"
  , "new_permissions_accepted"
  , "on-demand-test"
  , "opened"
  , "pending_cancellation"
  , "pending_change"
  , "pending_change_cancelled"
  , "pending_tier_change"
  , "performed"
  , "pinned"
  , "prereleased"
  , "privatized"
  , "publicized"
  , "published"
  , "purchased"
  , "ready_for_review"
  , "released"
  , "removed"
  , "removed_from_repository"
  , "renamed"
  , "reopened"
  , "rerequested"
  , "resolve"
  , "resolved"
  , "requested"
  , "requested_action"
  , "review_requested"
  , "review_request_removed"
  , "revoked"
  , "started"
  , "submitted"
  , "synchronize"
  , "tier_changed"
  , "transferred"
  , "unarchived"
  , "unassigned"
  , "unblocked"
  , "unlabeled"
  , "unlocked"
  , "unpinned"
  , "unpublished"
  , "unresolved"
  , "updated" ]

/-- The middle-level key of the registry tree: a `WebhookEventAction` enum
member (by its value string), the string constant `ANY_ACTION = "*"`, or
the string constant `DEBUG = "debug"`.  In Python these three kinds of
keys are pairwise distinct dict keys (an enum member never equals a
string). -/
inductive ActionKey where
  | debugKey : ActionKey
  | anyAction : ActionKey
  | act : String → ActionKey
deriving DecidableEq

/-- A full key into the three-level registry:
(event value string, action-level key, repository full name or `"*"`). -/
abbrev TreeKey := String × ActionKey × String

/-- `set.add(x)`: insert `x` into the set unless already present. -/
def setAdd (l : List Nat) (x : Nat) : List Nat :=
  if x ∈ l then l else x :: l

/-- `s = l.copy(); s.update(l')`: the set union, keeping `l`'s members and
adding each member of `l'` not already present. -/
def setUnion (l l' : List Nat) : List Nat :=
  l'.foldl setAdd l

/-- State of `_WebhookDecorator`: the cell contents of
`self.handlers[event][actionKey][repo]` (defaulting to the empty set, as a
`defaultdict(set)` does), together with the list of events under whose
entry a `DEBUG` sub-key was created (insertions at decorators.py lines
57/60; this is what `if action_handlers[DEBUG]:` at line 108 tests). -/
structure Registry where
  cells : TreeKey → List Nat
  debugEvents : List String

/-- `_WebhookDecorator.__init__` (decorators.py lines 22-25): an empty
`defaultdict` tree. -/
def Registry.empty : Registry := ⟨fun _ => [], []⟩

/-- One `self.handlers[event][key][repo].add(wrapper)` call. -/
def addHandler (r : Registry) (k : TreeKey) (h : Nat) : Registry :=
  { cells := fun k' => if k' = k then setAdd (r.cells k) h else r.cells k'
    debugEvents :=
      match k.2.1 with
      | ActionKey.debugKey => k.1 :: r.debugEvents
      | _ => r.debugEvents }

/-- The cells into which one `webhook(event, actions, repositories, debug)`
registration inserts its `wrapper`, in the order of the insertions at
decorators.py lines 55-74.  `repositories = []` models both `None` and an
empty list (Python: `repos = repositories or []`), and likewise
`actions = []` covers `if not actions`. -/
def regKeys (event : String) (actions repositories : List String)
    (debug : Bool) : List TreeKey :=
  (if debug then
      if repositories = [] then [(event, ActionKey.debugKey, ANY_REPO)]
      else repositories.map (fun repo => (event, ActionKey.debugKey, repo))
    else [])
  ++ (if actions = [] then
        if repositories = [] then [(event, ActionKey.anyAction, ANY_REPO)]
        else repositories.map (fun repo => (event, ActionKey.anyAction, repo))
      else
        actions.flatMap (fun a =>
          if repositories = [] then [(event, ActionKey.act a, ANY_REPO)]
          else repositories.map (fun repo => (event, ActionKey.act a, repo))))

/-- `_WebhookDecorator.webhook` (decorators.py lines 27-78): registering
handler `h` inserts it into every cell listed by `regKeys`.  The `event`
argument is a `WebhookEvent` member, represented by its value string. -/
def Registry.webhook (r : Registry) (event : String)
    (actions repositories : List String) (debug : Bool) (h : Nat) : Registry :=
  (regKeys event actions repositories debug).foldl
    (fun acc k => addHandler acc k h) r

/-- `if action_handlers[DEBUG]:` (decorators.py line 108): the dict under
the `DEBUG` key is non-empty, i.e. some `debug=True` registration for this
event has happened. -/
def Registry.debugActive (r : Registry) (event : String) : Bool :=
  r.debugEvents.contains event

/-- The webhook payload, reduced to the two fields `handle_webhook` reads:
the `repository.full_name` path (`none` when the path is absent, in which
case line 98 raises `KeyError`) and the `action` field
(`payload.get("action")`). -/
structure Payload where
  repository : Option String
  action : Option String

/-- The exceptions that can escape `handle_webhook`:
`ValueError` from `WebhookEvent(event_name)` (line 93), `KeyError` from
`payload["repository"]["full_name"]` (line 98), and `ValueError` from
`WebhookEventAction(payload["action"])` (lines 102/105). -/
inductive DispatchError where
  | unknownEvent : DispatchError
  | missingRepository : DispatchError
  | unknownAction : DispatchError
deriving DecidableEq

/-- Lines 93-111 of `handle_webhook`: compute the set of handlers the
invocation loop will iterate over, or the exception raised while doing so.
Mirrors the statement order of the source: event lookup, the
always-invoked `[ANY_ACTION][ANY_REPO]` cell, the repository extraction,
the specific-action cells, then the debug override. -/
def Registry.candidateHandlers (r : Registry) (event_name : String)
    (p : Payload) : Except DispatchError (List Nat) :=
  if event_name ∈ validEvents then
    let base := r.cells (event_name, ActionKey.anyAction, ANY_REPO)
    match p.repository with
    | none => Except.error DispatchError.missingRepository
    | some repo_name =>
      let withAction : Except DispatchError (List Nat) :=
        match p.action with
        | none => Except.ok base
        | some a =>
          if a ∈ validActions then
            Except.ok (setUnion
              (setUnion base (r.cells (event_name, ActionKey.act a, ANY_REPO)))
              (r.cells (event_name, ActionKey.act a, repo_name)))
          else Except.error DispatchError.unknownAction
      withAction.map (fun hs =>
        if r.debugActive event_name then
          setUnion (r.cells (event_name, ActionKey.debugKey, ANY_REPO))
            (r.cells (event_name, ActionKey.debugKey, repo_name))
        else hs)
  else Except.error DispatchError.unknownEvent

/-- The set of handlers a dispatch attempts to invoke: the candidate set
on success, and nothing when an exception is raised before the invocation
loop is reached. -/
def Registry.invoked (r : Registry) (event_name : String) (p : Payload) :
    List Nat :=
  match r.candidateHandlers event_name p with
  | Except.ok s => s
  | Except.error _ => []

/-- The invocation loop (decorators.py lines 113-119): every handler in the
set is called exactly once; `raises h = true` means the handler's body
throws, which the `except Exception` clause catches, so the loop always
continues to the next handler and the loop itself always terminates
normally.  Records each attempted handler with its outcome. -/
def invokeAll (hs : List Nat) (raises : Nat → Bool) : List (Nat × Bool) :=
  hs.map (fun h => (h, raises h))

/-- `_WebhookDecorator.handle_webhook` (decorators.py lines 80-119) in
full: candidate computation followed by the invocation loop.  The result
is the list of (handler, did-it-throw) invocation records, or the
exception that escaped before the loop. -/
def Registry.handle_webhook (r : Registry) (event_name : String)
    (p : Payload) (raises : Nat → Bool) :
    Except DispatchError (List (Nat × Bool)) :=
  (r.candidateHandlers event_name p).map (fun s => invokeAll s raises)

/-- `reset` (octohook/__init__.py lines 130-154): `_decorator.handlers.clear()`
empties the whole tree (the module/override bookkeeping it also clears is
outside the dispatcher's state). -/
def Registry.reset (_ : Registry) : Registry := Registry.empty

/-- One call to the registration function, as recorded for replaying a
registration pass (claim C9). -/
structure RegCall where
  event : String
  actions : List String
  repositories : List String
  debug : Bool
  hid : Nat

/-- Perform a sequence of registration calls in order. -/
def applyCalls (r : Registry) (cs : List RegCall) : Registry :=
  cs.foldl (fun acc c => acc.webhook c.event c.actions c.repositories c.debug c.hid) r

/-- A registry whose cells are duplicate-free sets, as Python `set`s are.
This holds for every registry reachable from `Registry.empty`. -/
def Registry.WF (r : Registry) : Prop := ∀ k, (r.cells k).Nodup

/-! ## Basic lemmas about the set operations -/

theorem mem_setAdd {l : List Nat} {x y : Nat} :
    y ∈ setAdd l x ↔ y = x ∨ y ∈ l := by
  unfold setAdd
  split
  · constructor
    · exact fun hy => Or.inr hy
    · rintro (rfl | hy) <;> assumption
  · simp [List.mem_cons]

theorem nodup_setAdd {l : List Nat} {x : Nat} (hl : l.Nodup) :
    (setAdd l x).Nodup := by
  unfold setAdd
  split
  · exact hl
  · exact List.Nodup.cons (by assumption) hl

theorem mem_setUnion {l l' : List Nat} {y : Nat} :
    y ∈ setUnion l l' ↔ y ∈ l ∨ y ∈ l' := by
  induction l' generalizing l with
  | nil => simp [setUnion]
  | cons x xs ih =>
    unfold setUnion at ih ⊢
    rw [List.foldl_cons, ih, mem_setAdd]
    constructor
    · rintro ((rfl | hy) | hy)
      · exact Or.inr (List.mem_cons_self _ _)
      · exact Or.inl hy
      · exact Or.inr (List.mem_cons_of_mem _ hy)
    · rintro (hy | hy)
      · exact Or.inl (Or.inr hy)
      · rcases List.mem_cons.mp hy with rfl | hy
        · exact Or.inl (Or.inl rfl)
        · exact Or.inr hy

theorem nodup_setUnion {l l' : List Nat} (hl : l.Nodup) :
    (setUnion l l').Nodup := by
  induction l' generalizing l with
  | nil => exact hl
  | cons x xs ih =>
    unfold setUnion at ih ⊢
    rw [List.foldl_cons]
    exact ih (nodup_setAdd hl)

/-! ## Lemmas about cell updates -/

theorem cells_addHandler_self (r : Registry) (k : TreeKey) (h : Nat) :
    (addHandler r k h).cells k = setAdd (r.cells k) h := by
  simp [addHandler]

theorem cells_addHandler_ne {r : Registry} {k k' : TreeKey} {h : Nat}
    (hne : k' ≠ k) : (addHandler r k h).cells k' = r.cells k' := by
  simp [addHandler, hne]

theorem mem_cells_addHandler {r : Registry} {k k' : TreeKey} {h a : Nat} :
    a ∈ (addHandler r k h).cells k' ↔ a ∈ r.cells k' ∨ (a = h ∧ k' = k) := by
  by_cases hk : k' = k
  · subst hk
    rw [cells_addHandler_self, mem_setAdd]
    tauto
  · rw [cells_addHandler_ne hk]
    tauto

theorem nodup_cells_addHandler {r : Registry} (hr : r.WF) (k : TreeKey)
    (h : Nat) : (addHandler r k h).WF := by
  intro k'
  by_cases hk : k' = k
  · subst hk
    rw [cells_addHandler_self]
    exact nodup_setAdd (hr _)
  · rw [cells_addHandler_ne hk]
    exact hr k'

theorem debugEvents_addHandler (r : Registry) (k : TreeKey) (h : Nat) :
    (addHandler r k h).debugEvents =
      if k.2.1 = ActionKey.debugKey then k.1 :: r.debugEvents
      else r.debugEvents := by
  obtain ⟨e, ak, rp⟩ := k
  cases ak <;> simp [addHandler]

theorem mem_cells_foldl {ks : List TreeKey} {r : Registry} {h a : Nat}
    {k' : TreeKey} :
    a ∈ ((ks.foldl (fun acc k => addHandler acc k h) r).cells k') ↔
      a ∈ r.cells k' ∨ (a = h ∧ k' ∈ ks) := by
  induction ks generalizing r with
  | nil => simp
  | cons k ks ih =>
    rw [List.foldl_cons, ih, mem_cells_addHandler]
    constructor
    · rintro ((hy | ⟨rfl, rfl⟩) | ⟨rfl, hy⟩)
      · exact Or.inl hy
      · exact Or.inr ⟨rfl, List.mem_cons_self _ _⟩
      · exact Or.inr ⟨rfl, List.mem_cons_of_mem _ hy⟩
    · rintro (hy | ⟨rfl, hy⟩)
      · exact Or.inl (Or.inl hy)
      · rcases List.mem_cons.mp hy with rfl | hy
        · exact Or.inl (Or.inr ⟨rfl, rfl⟩)
        · exact Or.inr ⟨rfl, hy⟩

theorem cells_foldl_ne {ks : List TreeKey} {r : Registry} {h : Nat}
    {k' : TreeKey} (hk : ∀ k ∈ ks, k' ≠ k) :
    ((ks.foldl (fun acc k => addHandler acc k h) r).cells k') = r.cells k' := by
  induction ks generalizing r with
  | nil => rfl
  | cons k ks ih =>
    rw [List.foldl_cons, ih (fun x hx => hk x (List.mem_cons_of_mem _ hx)),
      cells_addHandler_ne (hk k (List.mem_cons_self _ _))]

theorem wf_foldl {ks : List TreeKey} {r : Registry} {h : Nat} (hr : r.WF) :
    (ks.foldl (fun acc k => addHandler acc k h) r).WF := by
  induction ks generalizing r with
  | nil => exact hr
  | cons k ks ih => exact ih (nodup_cells_addHandler hr k h)

theorem mem_debugEvents_foldl {ks : List TreeKey} {r : Registry} {h : Nat}
    {e : String} :
    e ∈ (ks.foldl (fun acc k => addHandler acc k h) r).debugEvents ↔
      e ∈ r.debugEvents ∨ ∃ k ∈ ks, k.1 = e ∧ k.2.1 = ActionKey.debugKey := by
  induction ks generalizing r with
  | nil => simp
  | cons k ks ih =>
    rw [List.foldl_cons, ih, debugEvents_addHandler]
    by_cases hdbg : k.2.1 = ActionKey.debugKey
    · simp [hdbg, List.mem_cons]
      tauto
    · simp [hdbg, List.mem_cons]

/-! ## Lemmas about `regKeys` and `webhook` -/

theorem mem_regKeys {k : TreeKey} {e : String} {as rs : List String}
    {dbg : Bool} :
    k ∈ regKeys e as rs dbg ↔
      (dbg = true ∧ ((rs = [] ∧ k = (e, ActionKey.debugKey, ANY_REPO)) ∨
        ∃ rp ∈ rs, k = (e, ActionKey.debugKey, rp)))
      ∨ (as = [] ∧ ((rs = [] ∧ k = (e, ActionKey.anyAction, ANY_REPO)) ∨
        ∃ rp ∈ rs, k = (e, ActionKey.anyAction, rp)))
      ∨ (∃ a ∈ as, ((rs = [] ∧ k = (e, ActionKey.act a, ANY_REPO)) ∨
        ∃ rp ∈ rs, k = (e, ActionKey.act a, rp))) := by
  unfold regKeys
  cases dbg <;> by_cases has : as = [] <;> by_cases hrs : rs = [] <;>
    simp [has, hrs, eq_comm]

theorem regKeys_fst {k : TreeKey} {e : String} {as rs : List String}
    {dbg : Bool} (hk : k ∈ regKeys e as rs dbg) : k.1 = e := by
  rcases mem_regKeys.mp hk with ⟨-, (⟨-, rfl⟩ | ⟨rp, -, rfl⟩)⟩ |
    ⟨-, (⟨-, rfl⟩ | ⟨rp, -, rfl⟩)⟩ | ⟨a, -, (⟨-, rfl⟩ | ⟨rp, -, rfl⟩)⟩ <;> rfl

theorem regKeys_no_debug {k : TreeKey} {e : String} {as rs : List String}
    (hk : k ∈ regKeys e as rs false) : k.2.1 ≠ ActionKey.debugKey := by
  rcases mem_regKeys.mp hk with ⟨hfalse, -⟩ |
    ⟨-, (⟨-, rfl⟩ | ⟨rp, -, rfl⟩)⟩ | ⟨a, -, (⟨-, rfl⟩ | ⟨rp, -, rfl⟩)⟩
  · exact absurd hfalse (by simp)
  all_goals simp

theorem mem_cells_webhook {r : Registry} {e : String} {as rs : List String}
    {dbg : Bool} {h a : Nat} {k' : TreeKey} :
    a ∈ (r.webhook e as rs dbg h).cells k' ↔
      a ∈ r.cells k' ∨ (a = h ∧ k' ∈ regKeys e as rs dbg) :=
  mem_cells_foldl

theorem cells_webhook_ne_event {r : Registry} {e : String}
    {as rs : List String} {dbg : Bool} {h : Nat} {k' : TreeKey}
    (hne : k'.1 ≠ e) : (r.webhook e as rs dbg h).cells k' = r.cells k' :=
  cells_foldl_ne (fun _ hk heq => hne (heq ▸ regKeys_fst hk))

theorem wf_webhook {r : Registry} {e : String} {as rs : List String}
    {dbg : Bool} {h : Nat} (hr : r.WF) : (r.webhook e as rs dbg h).WF :=
  wf_foldl hr

theorem wf_empty : Registry.empty.WF := fun _ => List.nodup_nil

theorem wf_applyCalls {r : Registry} {cs : List RegCall} (hr : r.WF) :
    (applyCalls r cs).WF := by
  induction cs generalizing r with
  | nil => exact hr
  | cons c cs ih => exact ih (wf_webhook hr)

theorem debugActive_iff {r : Registry} {e : String} :
    r.debugActive e = true ↔ e ∈ r.debugEvents := by
  exact List.elem_iff

theorem debugActive_webhook {r : Registry} {e e' : String}
    {as rs : List String} {dbg : Bool} {h : Nat} :
    (r.webhook e as rs dbg h).debugActive e' = true ↔
      r.debugActive e' = true ∨
        (dbg = true ∧ e' = e) := by
  rw [debugActive_iff, debugActive_iff, Registry.webhook,
    mem_debugEvents_foldl]
  constructor
  · rintro (hy | ⟨k, hk, hk1, hk2⟩)
    · exact Or.inl hy
    · rcases mem_regKeys.mp hk with ⟨hdbg, (⟨-, rfl⟩ | ⟨rp, -, rfl⟩)⟩ |
        ⟨-, (⟨-, rfl⟩ | ⟨rp, -, rfl⟩)⟩ | ⟨a, -, (⟨-, rfl⟩ | ⟨rp, -, rfl⟩)⟩ <;>
        first
          | exact Or.inr ⟨hdbg, hk1.symm⟩
          | exact absurd hk2 (by simp)
  · rintro (hy | ⟨rfl, rfl⟩)
    · exact Or.inl hy
    · refine Or.inr ?_
      by_cases hrs : rs = []
      · exact ⟨(e', ActionKey.debugKey, ANY_REPO),
          mem_regKeys.mpr (Or.inl ⟨rfl, Or.inl ⟨hrs, rfl⟩⟩), rfl, rfl⟩
      · obtain ⟨rp, hrp⟩ := List.exists_mem_of_ne_nil rs hrs
        exact ⟨(e', ActionKey.debugKey, rp),
          mem_regKeys.mpr (Or.inl ⟨rfl, Or.inr ⟨rp, hrp, rfl⟩⟩), rfl, rfl⟩

theorem debugActive_webhook_ne {r : Registry} {e e' : String}
    {as rs : List String} {dbg : Bool} {h : Nat} (hne : e' ≠ e) :
    (r.webhook e as rs dbg h).debugActive e' = r.debugActive e' := by
  by_cases hr : r.debugActive e' = true
  · rw [hr, debugActive_webhook.mpr (Or.inl hr)]
  · rw [Bool.not_eq_true] at hr
    rw [hr]
    rw [Bool.eq_false_iff]
    intro hcon
    rcases debugActive_webhook.mp hcon with hy | ⟨-, hy⟩
    · rw [hr] at hy
      cases hy
    · exact hne hy

theorem debugActive_webhook_false {r : Registry} {e e' : String}
    {as rs : List String} {h : Nat} :
    (r.webhook e as rs false h).debugActive e' = r.debugActive e' := by
  by_cases hr : r.debugActive e' = true
  · rw [hr, debugActive_webhook.mpr (Or.inl hr)]
  · rw [Bool.not_eq_true] at hr
    rw [hr, Bool.eq_false_iff]
    intro hcon
    rcases debugActive_webhook.mp hcon with hy | ⟨hy, -⟩
    · rw [hr] at hy
      cases hy
    · cases hy

/-! ## Lemmas about `candidateHandlers`, `invoked` and `handle_webhook` -/

theorem candidateHandlers_unknownEvent {r : Registry} {en : String}
    {p : Payload} (hE : en ∉ validEvents) :
    r.candidateHandlers en p = Except.error DispatchError.unknownEvent := by
  simp [Registry.candidateHandlers, hE]

theorem candidateHandlers_missingRepo {r : Registry} {en : String}
    {p : Payload} (hE : en ∈ validEvents) (hrepo : p.repository = none) :
    r.candidateHandlers en p = Except.error DispatchError.missingRepository := by
  simp [Registry.candidateHandlers, hE, hrepo]

theorem candidateHandlers_unknownAction {r : Registry} {en rn a : String}
    {p : Payload} (hE : en ∈ validEvents) (hrepo : p.repository = some rn)
    (haction : p.action = some a) (hav : a ∉ validActions) :
    r.candidateHandlers en p = Except.error DispatchError.unknownAction := by
  simp [Registry.candidateHandlers, hE, hrepo, haction, hav, Except.map]

theorem candidateHandlers_debug {r : Registry} {en rn : String} {p : Payload}
    (hE : en ∈ validEvents) (hrepo : p.repository = some rn)
    (haction : p.action = none ∨ ∃ a, p.action = some a ∧ a ∈ validActions)
    (hdbg : r.debugActive en = true) :
    r.candidateHandlers en p = Except.ok
      (setUnion (r.cells (en, ActionKey.debugKey, ANY_REPO))
        (r.cells (en, ActionKey.debugKey, rn))) := by
  rcases haction with ha | ⟨a, ha, hav⟩
  · simp [Registry.candidateHandlers, hE, hrepo, ha, hdbg, Except.map]
  · simp [Registry.candidateHandlers, hE, hrepo, ha, hdbg, hav, Except.map]

theorem candidateHandlers_normal_none {r : Registry} {en rn : String}
    {p : Payload} (hE : en ∈ validEvents) (hrepo : p.repository = some rn)
    (haction : p.action = none) (hdbg : r.debugActive en = false) :
    r.candidateHandlers en p =
      Except.ok (r.cells (en, ActionKey.anyAction, ANY_REPO)) := by
  simp [Registry.candidateHandlers, hE, hrepo, haction, hdbg, Except.map]

theorem candidateHandlers_normal_some {r : Registry} {en rn a : String}
    {p : Payload} (hE : en ∈ validEvents) (hrepo : p.repository = some rn)
    (haction : p.action = some a) (hav : a ∈ validActions)
    (hdbg : r.debugActive en = false) :
    r.candidateHandlers en p = Except.ok
      (setUnion
        (setUnion (r.cells (en, ActionKey.anyAction, ANY_REPO))
          (r.cells (en, ActionKey.act a, ANY_REPO)))
        (r.cells (en, ActionKey.act a, rn))) := by
  simp [Registry.candidateHandlers, hE, hrepo, haction, hav, hdbg, Except.map]

theorem invoked_of_ok {r : Registry} {en : String} {p : Payload}
    {s : List Nat} (hok : r.candidateHandlers en p = Except.ok s) :
    r.invoked en p = s := by
  simp [Registry.invoked, hok]

theorem invoked_of_error {r : Registry} {en : String} {p : Payload}
    {err : DispatchError}
    (herr : r.candidateHandlers en p = Except.error err) :
    r.invoked en p = [] := by
  simp [Registry.invoked, herr]

/-- Any handler a dispatch invokes lies in one of the five cells
`handle_webhook` reads: `[ANY_ACTION][ANY_REPO]`, the specific action
under `ANY_REPO` or the payload's repository, or one of the two `DEBUG`
cells.  In particular no `[ANY_ACTION][specific repo]` cell is ever
read. -/
theorem mem_invoked_cases {r : Registry} {en : String} {p : Payload}
    {h : Nat} (hm : h ∈ r.invoked en p) :
    h ∈ r.cells (en, ActionKey.anyAction, ANY_REPO)
    ∨ (∃ a rn, p.action = some a ∧ p.repository = some rn ∧
        (h ∈ r.cells (en, ActionKey.act a, ANY_REPO) ∨
         h ∈ r.cells (en, ActionKey.act a, rn)))
    ∨ (∃ rn, p.repository = some rn ∧
        (h ∈ r.cells (en, ActionKey.debugKey, ANY_REPO) ∨
         h ∈ r.cells (en, ActionKey.debugKey, rn))) := by
  by_cases hE : en ∈ validEvents
  · rcases hrepo : p.repository with - | rn
    · rw [invoked_of_error (candidateHandlers_missingRepo hE hrepo)] at hm
      cases hm
    · by_cases hdbg : r.debugActive en = true
      · rcases haction : p.action with - | a
        · rw [invoked_of_ok (candidateHandlers_debug hE hrepo
            (Or.inl haction) hdbg)] at hm
          exact Or.inr (Or.inr ⟨rn, rfl, mem_setUnion.mp hm⟩)
        · by_cases hav : a ∈ validActions
          · rw [invoked_of_ok (candidateHandlers_debug hE hrepo
              (Or.inr ⟨a, haction, hav⟩) hdbg)] at hm
            exact Or.inr (Or.inr ⟨rn, rfl, mem_setUnion.mp hm⟩)
          · rw [invoked_of_error (candidateHandlers_unknownAction hE hrepo
              haction hav)] at hm
            cases hm
      · rw [Bool.not_eq_true] at hdbg
        rcases haction : p.action with - | a
        · rw [invoked_of_ok (candidateHandlers_normal_none hE hrepo
            haction hdbg)] at hm
          exact Or.inl hm
        · by_cases hav : a ∈ validActions
          · rw [invoked_of_ok (candidateHandlers_normal_some hE hrepo
              haction hav hdbg)] at hm
            rcases mem_setUnion.mp hm with hm' | hm'
            · rcases mem_setUnion.mp hm' with hm'' | hm''
              · exact Or.inl hm''
              · exact Or.inr (Or.inl ⟨a, rn, rfl, rfl, Or.inl hm''⟩)
            · exact Or.inr (Or.inl ⟨a, rn, rfl, rfl, Or.inr hm'⟩)
          · rw [invoked_of_error (candidateHandlers_unknownAction hE hrepo
              haction hav)] at hm
            cases hm
  · rw [invoked_of_error (candidateHandlers_unknownEvent hE)] at hm
    cases hm

theorem nodup_candidates {r : Registry} {en : String} {p : Payload}
    {s : List Nat} (hr : r.WF)
    (hok : r.candidateHandlers en p = Except.ok s) : s.Nodup := by
  by_cases hE : en ∈ validEvents
  · rcases hrepo : p.repository with - | rn
    · rw [candidateHandlers_missingRepo hE hrepo] at hok
      cases hok
    · by_cases hdbg : r.debugActive en = true
      · rcases haction : p.action with - | a
        · rw [candidateHandlers_debug hE hrepo (Or.inl haction) hdbg] at hok
          cases hok
          exact nodup_setUnion (hr _)
        · by_cases hav : a ∈ validActions
          · rw [candidateHandlers_debug hE hrepo
              (Or.inr ⟨a, haction, hav⟩) hdbg] at hok
            cases hok
            exact nodup_setUnion (hr _)
          · rw [candidateHandlers_unknownAction hE hrepo haction hav] at hok
            cases hok
      · rw [Bool.not_eq_true] at hdbg
        rcases haction : p.action with - | a
        · rw [candidateHandlers_normal_none hE hrepo haction hdbg] at hok
          cases hok
          exact hr _
        · by_cases hav : a ∈ validActions
          · rw [candidateHandlers_normal_some hE hrepo haction hav hdbg] at hok
            cases hok
            exact nodup_setUnion (nodup_setUnion (hr _))
          · rw [candidateHandlers_unknownAction hE hrepo haction hav] at hok
            cases hok
  · rw [candidateHandlers_unknownEvent hE] at hok
    cases hok

theorem handle_webhook_ok_iff {r : Registry} {en : String} {p : Payload}
    {raises : Nat → Bool} {out : List (Nat × Bool)} :
    r.handle_webhook en p raises = Except.ok out ↔
      r.candidateHandlers en p = Except.ok (r.invoked en p) ∧
        out = invokeAll (r.invoked en p) raises := by
  unfold Registry.handle_webhook
  rcases hc : r.candidateHandlers en p with err | s
  · simp [Except.map, invoked_of_error hc]
  · simp [Except.map, invoked_of_ok hc, eq_comm]

theorem handle_webhook_webhook_ne_event {r : Registry} {e en : String}
    {as rs : List String} {dbg : Bool} {h : Nat} {p : Payload}
    {raises : Nat → Bool} (hne : en ≠ e) :
    (r.webhook e as rs dbg h).handle_webhook en p raises =
      r.handle_webhook en p raises := by
  have hcells : ∀ k : TreeKey, k.1 = en →
      (r.webhook e as rs dbg h).cells k = r.cells k := by
    intro k hk
    exact cells_webhook_ne_event (by rw [hk]; exact hne)
  unfold Registry.handle_webhook Registry.candidateHandlers
  rcases hrep : p.repository with - | rn
  · simp only [debugActive_webhook_ne hne,
      hcells (en, ActionKey.anyAction, ANY_REPO) rfl]
  · rcases hact : p.action with - | a
    · simp only [debugActive_webhook_ne hne,
        hcells (en, ActionKey.anyAction, ANY_REPO) rfl,
        hcells (en, ActionKey.debugKey, ANY_REPO) rfl,
        hcells (en, ActionKey.debugKey, rn) rfl]
    · simp only [debugActive_webhook_ne hne,
        hcells (en, ActionKey.anyAction, ANY_REPO) rfl,
        hcells (en, ActionKey.act a, ANY_REPO) rfl,
        hcells (en, ActionKey.act a, rn) rfl,
        hcells (en, ActionKey.debugKey, ANY_REPO) rfl,
        hcells (en, ActionKey.debugKey, rn) rfl]

/-! ## Claim theorems -/

/-- C1: Debug override.  If a debug handler is registered (and not reset)
for event type `E`, a dispatch of any payload of type `E` invokes exactly
the debug handlers for `E` that match the payload's repository (the
`ANY_REPO` bucket plus the `repository.full_name` bucket); any handler
outside those buckets of `E` is never invoked for `E`; and registering a
debug handler for `E` leaves dispatch of every other event name
unchanged. -/
theorem debug_override (r : Registry) (E rn : String) (p : Payload)
    (raises : Nat → Bool)
    (hdbg : r.debugActive E = true) (hE : E ∈ validEvents)
    (hrepo : p.repository = some rn)
    (hact : p.action = none ∨ ∃ a, p.action = some a ∧ a ∈ validActions) :
    r.invoked E p =
      setUnion (r.cells (E, ActionKey.debugKey, ANY_REPO))
        (r.cells (E, ActionKey.debugKey, rn))
    ∧ (∀ (q : Payload) (h : Nat), h ∈ r.invoked E q →
        h ∈ r.cells (E, ActionKey.debugKey, ANY_REPO) ∨
          ∃ rn', q.repository = some rn' ∧
            h ∈ r.cells (E, ActionKey.debugKey, rn'))
    ∧ (∀ (en : String) (q : Payload) (as rs : List String) (hid : Nat),
        en ≠ E →
        (r.webhook E as rs true hid).handle_webhook en q raises =
          r.handle_webhook en q raises) := by
  refine ⟨invoked_of_ok (candidateHandlers_debug hE hrepo hact hdbg), ?_, ?_⟩
  · intro q h hm
    rcases hq : q.repository with - | rn'
    · rw [invoked_of_error (candidateHandlers_missingRepo hE hq)] at hm
      cases hm
    · rcases hqa : q.action with - | a
      · rw [invoked_of_ok (candidateHandlers_debug hE hq
          (Or.inl hqa) hdbg)] at hm
        rcases mem_setUnion.mp hm with hm | hm
        · exact Or.inl hm
        · exact Or.inr ⟨rn', rfl, hm⟩
      · by_cases hav : a ∈ validActions
        · rw [invoked_of_ok (candidateHandlers_debug hE hq
            (Or.inr ⟨a, hqa, hav⟩) hdbg)] at hm
          rcases mem_setUnion.mp hm with hm | hm
          · exact Or.inl hm
          · exact Or.inr ⟨rn', rfl, hm⟩
        · rw [invoked_of_error (candidateHandlers_unknownAction hE hq
            hqa hav)] at hm
          cases hm
  · exact fun en q as rs hid hne => handle_webhook_webhook_ne_event hne

/-- Witness for C1: two handlers for `"label"`, handler 1 with
`debug=True`, handler 2 without; the debug-mode dispatch invokes `[1]`. -/
theorem debug_override_witness :
    ((Registry.empty.webhook "label" [] [] true 1).webhook
        "label" [] [] false 2).debugActive "label" = true
    ∧ "label" ∈ validEvents
    ∧ (Payload.mk (some "o/r") none).repository = some "o/r"
    ∧ (((Registry.empty.webhook "label" [] [] true 1).webhook
          "label" [] [] false 2).invoked "label" ⟨some "o/r", none⟩ =
        setUnion
          (((Registry.empty.webhook "label" [] [] true 1).webhook
            "label" [] [] false 2).cells ("label", ActionKey.debugKey, ANY_REPO))
          (((Registry.empty.webhook "label" [] [] true 1).webhook
            "label" [] [] false 2).cells ("label", ActionKey.debugKey, "o/r"))
      ∧ (∀ (q : Payload) (h : Nat),
          h ∈ ((Registry.empty.webhook "label" [] [] true 1).webhook
            "label" [] [] false 2).invoked "label" q →
          h ∈ ((Registry.empty.webhook "label" [] [] true 1).webhook
            "label" [] [] false 2).cells ("label", ActionKey.debugKey, ANY_REPO) ∨
            ∃ rn', q.repository = some rn' ∧
              h ∈ ((Registry.empty.webhook "label" [] [] true 1).webhook
                "label" [] [] false 2).cells ("label", ActionKey.debugKey, rn'))
      ∧ (∀ (en : String) (q : Payload) (as rs : List String) (hid : Nat),
          en ≠ "label" →
          (((Registry.empty.webhook "label" [] [] true 1).webhook
              "label" [] [] false 2).webhook "label" as rs true hid).handle_webhook
              en q (fun _ => false) =
            ((Registry.empty.webhook "label" [] [] true 1).webhook
              "label" [] [] false 2).handle_webhook en q (fun _ => false))) :=
  ⟨by decide, by decide, rfl,
    debug_override _ "label" "o/r" ⟨some "o/r", none⟩ (fun _ => false)
      (by decide) (by decide) rfl (Or.inl rfl)⟩

/-- C2: At-most-once delivery per registration.  In any registry built by
a sequence of registration calls, a dispatch that reaches the invocation
loop attempts each handler id at most once, even when the id is stored in
several filter cells that all match the payload. -/
theorem at_most_once (cs : List RegCall) (en : String) (p : Payload)
    (raises : Nat → Bool) (h : Nat) (out : List (Nat × Bool))
    (hout : (applyCalls Registry.empty cs).handle_webhook en p raises =
      Except.ok out) :
    out.countP (fun x => x.1 == h) ≤ 1 := by
  obtain ⟨hc, rfl⟩ := handle_webhook_ok_iff.mp hout
  have hnd : ((applyCalls Registry.empty cs).invoked en p).Nodup :=
    nodup_candidates (wf_applyCalls wf_empty) hc
  unfold invokeAll
  rw [List.countP_map]
  have : ((fun x : Nat × Bool => x.1 == h) ∘ fun x : Nat => (x, raises x)) =
      fun x : Nat => x == h := rfl
  rw [this]
  exact List.nodup_iff_count_le_one.mp hnd h

/-- Witness for C2: handler 5 is a wildcard handler and handler 6 is
registered for two actions; dispatching a `created` label event attempts
each exactly once. -/
theorem at_most_once_witness :
    (applyCalls Registry.empty
        [⟨"label", [], [], false, 5⟩, ⟨"label", ["created", "edited"], [], false, 6⟩]).handle_webhook
        "label" ⟨some "o/r", some "created"⟩ (fun _ => false) =
      Except.ok [(6, false), (5, false)]
    ∧ ([(6, false), (5, false)] : List (Nat × Bool)).countP
        (fun x => x.1 == 6) ≤ 1 :=
  ⟨by rfl,
    at_most_once
      [⟨"label", [], [], false, 5⟩, ⟨"label", ["created", "edited"], [], false, 6⟩]
      "label" ⟨some "o/r", some "created"⟩ (fun _ => false) 6 _ (by rfl)⟩

/-- C3: Action filtering and wildcard overlap.  Handler 1 registered for
`actions=[CREATED, EDITED]` fires on a `created` payload and not on a
`deleted` one; with a wildcard handler 1 and a `CREATED` handler 2, a
`created` payload invokes both while a `deleted` payload invokes only the
wildcard handler. -/
theorem action_filtering (rn : String) :
    (1 ∈ (Registry.empty.webhook "label" ["created", "edited"] [] false 1).invoked
        "label" ⟨some rn, some "created"⟩)
    ∧ (1 ∉ (Registry.empty.webhook "label" ["created", "edited"] [] false 1).invoked
        "label" ⟨some rn, some "deleted"⟩)
    ∧ (1 ∈ ((Registry.empty.webhook "label" [] [] false 1).webhook
          "label" ["created"] [] false 2).invoked
        "label" ⟨some rn, some "created"⟩
      ∧ 2 ∈ ((Registry.empty.webhook "label" [] [] false 1).webhook
          "label" ["created"] [] false 2).invoked
        "label" ⟨some rn, some "created"⟩)
    ∧ ((Registry.empty.webhook "label" [] [] false 1).webhook
          "label" ["created"] [] false 2).invoked
        "label" ⟨some rn, some "deleted"⟩ = [1] := by
  have hE : "label" ∈ validEvents := by decide
  have hc : "created" ∈ validActions := by decide
  have hd : "deleted" ∈ validActions := by decide
  have hdbg1 : (Registry.empty.webhook "label" ["created", "edited"] []
      false 1).debugActive "label" = false := by decide
  have hdbgW : ((Registry.empty.webhook "label" [] [] false 1).webhook
      "label" ["created"] [] false 2).debugActive "label" = false := by decide
  refine ⟨?_, ?_, ⟨?_, ?_⟩, ?_⟩
  · rw [invoked_of_ok (candidateHandlers_normal_some hE rfl rfl hc hdbg1)]
    rw [mem_setUnion, mem_setUnion]
    exact Or.inl (Or.inr (mem_cells_webhook.mpr (Or.inr ⟨rfl, by decide⟩)))
  · rw [invoked_of_ok (candidateHandlers_normal_some hE rfl rfl hd hdbg1)]
    rw [mem_setUnion, mem_setUnion]
    rintro ((hm | hm) | hm) <;>
      rcases mem_cells_webhook.mp hm with hm' | ⟨-, hm'⟩ <;>
      first
        | simp [Registry.empty] at hm'
        | (revert hm'; simp [regKeys, ANY_REPO])
  · rw [invoked_of_ok (candidateHandlers_normal_some hE rfl rfl hc hdbgW)]
    rw [mem_setUnion, mem_setUnion]
    refine Or.inl (Or.inl (mem_cells_webhook.mpr (Or.inl ?_)))
    exact mem_cells_webhook.mpr (Or.inr ⟨rfl, by decide⟩)
  · rw [invoked_of_ok (candidateHandlers_normal_some hE rfl rfl hc hdbgW)]
    rw [mem_setUnion, mem_setUnion]
    exact Or.inl (Or.inr (mem_cells_webhook.mpr (Or.inr ⟨rfl, by decide⟩)))
  · rw [invoked_of_ok (candidateHandlers_normal_some hE rfl rfl hd hdbgW)]
    have hbase : ((Registry.empty.webhook "label" [] [] false 1).webhook
        "label" ["created"] [] false 2).cells
        ("label", ActionKey.anyAction, ANY_REPO) = [1] := by decide
    have hc1 : ((Registry.empty.webhook "label" [] [] false 1).webhook
        "label" ["created"] [] false 2).cells
        ("label", ActionKey.act "deleted", ANY_REPO) = [] := by decide
    have hc2 : ((Registry.empty.webhook "label" [] [] false 1).webhook
        "label" ["created"] [] false 2).cells
        ("label", ActionKey.act "deleted", rn) = [] := by
      rw [List.eq_nil_iff_forall_not_mem]
      intro x hx
      rcases mem_cells_webhook.mp hx with hx' | ⟨-, hx'⟩
      · rcases mem_cells_webhook.mp hx' with hx'' | ⟨-, hx''⟩
        · simp [Registry.empty] at hx''
        · revert hx''
          simp [regKeys, ANY_REPO]
      · revert hx'
        simp [regKeys, ANY_REPO]
    rw [hbase, hc1, hc2]
    rfl

/-- C4 counterexample: handler 7 is registered with
`repositories=["owner/a"]` and no actions; it lands in the
`[ANY_ACTION]["owner/a"]` cell, which `handle_webhook` never reads, so a
payload whose `repository.full_name` is `"owner/a"` does *not* invoke it,
refuting the claim's "must fire" half. -/
theorem repository_filtering_counterexample :
    7 ∉ (Registry.empty.webhook "label" [] ["owner/a"] false 7).invoked
      "label" ⟨some "owner/a", some "created"⟩ := by decide

/-- C4 (amended): a non-debug handler registered with
`repositories=["owner/a"]` *and a non-empty actions list* is not invoked
when the payload's repository is `"owner/b"`, and is invoked when the
payload's repository is `"owner/a"` and its action is one of the
handler's actions (without actions the handler sits in a cell dispatch
never reads — see the counterexample). -/
theorem repository_filtering (r : Registry) (e a : String)
    (as : List String) (h : Nat)
    (hfresh : ∀ k, h ∉ r.cells k)
    (he : e ∈ validEvents) (ha : a ∈ as) (hav : a ∈ validActions)
    (hnd : r.debugActive e = false) :
    h ∈ (r.webhook e as ["owner/a"] false h).invoked e
      ⟨some "owner/a", some a⟩
    ∧ h ∉ (r.webhook e as ["owner/a"] false h).invoked e
      ⟨some "owner/b", some a⟩ := by
  have hnot : ∀ k : TreeKey, k ∈ regKeys e as ["owner/a"] false →
      k.2.2 = "owner/a" ∧ ∃ x, k.2.1 = ActionKey.act x := by
    intro k hk
    rcases mem_regKeys.mp hk with ⟨hfalse, -⟩ |
      ⟨hnil, -⟩ | ⟨x, -, (⟨hnil, -⟩ | ⟨rp, hrp, rfl⟩)⟩
    · simp at hfalse
    · rw [hnil] at ha
      cases ha
    · simp at hnil
    · rcases List.mem_singleton.mp hrp with rfl
      exact ⟨rfl, x, rfl⟩
  have hdbg : (r.webhook e as ["owner/a"] false h).debugActive e = false := by
    rw [debugActive_webhook_false]
    exact hnd
  constructor
  · rw [invoked_of_ok (candidateHandlers_normal_some he rfl rfl hav hdbg)]
    rw [mem_setUnion]
    refine Or.inr (mem_cells_webhook.mpr (Or.inr ⟨rfl, ?_⟩))
    exact mem_regKeys.mpr (Or.inr (Or.inr
      ⟨a, ha, Or.inr ⟨"owner/a", List.mem_singleton.mpr rfl, rfl⟩⟩))
  · intro hm
    rcases mem_invoked_cases hm with hm | ⟨a', rn', -, hrn', hm⟩ |
      ⟨rn', hrn', hm⟩
    · rcases mem_cells_webhook.mp hm with hm' | ⟨-, hk⟩
      · exact hfresh _ hm'
      · obtain ⟨-, x, hact⟩ := hnot _ hk
        simp at hact
    · obtain rfl : rn' = "owner/b" := by
        exact (Option.some.injEq _ _).mp hrn'.symm
      rcases hm with hm | hm <;>
        rcases mem_cells_webhook.mp hm with hm' | ⟨-, hk⟩
      · exact hfresh _ hm'
      · obtain ⟨hrep, -⟩ := hnot _ hk
        simp [ANY_REPO] at hrep
      · exact hfresh _ hm'
      · obtain ⟨hrep, -⟩ := hnot _ hk
        simp at hrep
    · rcases hm with hm | hm <;>
        rcases mem_cells_webhook.mp hm with hm' | ⟨-, hk⟩
      · exact hfresh _ hm'
      · obtain ⟨-, x, hact⟩ := hnot _ hk
        simp at hact
      · exact hfresh _ hm'
      · obtain ⟨-, x, hact⟩ := hnot _ hk
        simp at hact

/-- Witness for C4 (amended): handler 8 for `(label, [created],
["owner/a"])` fires on an `owner/a` created payload and not on an
`owner/b` one. -/
theorem repository_filtering_witness :
    (∀ k : TreeKey, 8 ∉ Registry.empty.cells k)
    ∧ "label" ∈ validEvents
    ∧ "created" ∈ (["created"] : List String)
    ∧ "created" ∈ validActions
    ∧ Registry.empty.debugActive "label" = false
    ∧ (8 ∈ (Registry.empty.webhook "label" ["created"] ["owner/a"]
          false 8).invoked "label" ⟨some "owner/a", some "created"⟩
      ∧ 8 ∉ (Registry.empty.webhook "label" ["created"] ["owner/a"]
          false 8).invoked "label" ⟨some "owner/b", some "created"⟩) :=
  ⟨fun _ hk => List.not_mem_nil 8 hk, by decide, by decide, by decide,
    by decide,
    repository_filtering Registry.empty "label" "created" ["created"] 8
      (fun _ hk => List.not_mem_nil 8 hk) (by decide) (by decide)
      (by decide) (by decide)⟩

/-- C5 counterexample: dispatching an unknown event name raises
`ValueError` (from `WebhookEvent(event_name)` at decorators.py line 93)
instead of returning normally, refuting "never throws". -/
theorem unknown_event_counterexample :
    ("totally_unknown_event_name" ∉ validEvents)
    ∧ (Registry.empty.webhook "label" [] [] false 1).handle_webhook
        "totally_unknown_event_name" ⟨some "o/r", none⟩ (fun _ => false)
      = Except.error DispatchError.unknownEvent :=
  ⟨by decide, by rfl⟩

/-- C5 (amended): for every event-name string that is not a known
`WebhookEvent` value, `handle_webhook` raises `ValueError` and invokes
zero handlers; it does not return normally. -/
theorem unknown_event_raises (r : Registry) (en : String) (p : Payload)
    (raises : Nat → Bool) (hE : en ∉ validEvents) :
    r.handle_webhook en p raises = Except.error DispatchError.unknownEvent
    ∧ r.invoked en p = [] := by
  have hc := @candidateHandlers_unknownEvent r en p hE
  constructor
  · unfold Registry.handle_webhook
    rw [hc]
    rfl
  · exact invoked_of_error hc

/-- Witness for C5 (amended) at the spec's own example input. -/
theorem unknown_event_raises_witness :
    ("totally_unknown_event_name" ∉ validEvents)
    ∧ (Registry.empty.handle_webhook "totally_unknown_event_name"
          ⟨some "o/r", none⟩ (fun _ => false) =
        Except.error DispatchError.unknownEvent
      ∧ Registry.empty.invoked "totally_unknown_event_name"
          ⟨some "o/r", none⟩ = []) :=
  ⟨by decide,
    unknown_event_raises Registry.empty "totally_unknown_event_name"
      ⟨some "o/r", none⟩ (fun _ => false) (by decide)⟩

/-- C6: a payload with no `repository.full_name` path makes
`handle_webhook` raise `KeyError` at decorators.py line 98 and invoke
nothing — here handler 3 is registered under `ANY_REPO` for
`"installation"` (an event type whose GitHub payloads genuinely lack a
`repository` key) and still does not fire. -/
theorem missing_repository_raises :
    (Registry.empty.webhook "installation" [] [] false 3).handle_webhook
        "installation" ⟨none, some "created"⟩ (fun _ => false)
      = Except.error DispatchError.missingRepository
    ∧ (Registry.empty.webhook "installation" [] [] false 3).invoked
        "installation" ⟨none, some "created"⟩ = [] :=
  ⟨by rfl, by rfl⟩

/-- C7 counterexample: a payload whose `action` is not a known
`WebhookEventAction` value makes `handle_webhook` raise `ValueError`
(decorators.py line 102) before the invocation loop; even the registered
`ANY_ACTION x ANY_REPO` handler 4 is not invoked, refuting "ANY_ACTION
handlers still fire". -/
theorem unknown_action_counterexample :
    ("frobnicated" ∉ validActions)
    ∧ (Registry.empty.webhook "label" [] [] false 4).handle_webhook
        "label" ⟨some "o/r", some "frobnicated"⟩ (fun _ => false)
      = Except.error DispatchError.unknownAction
    ∧ (Registry.empty.webhook "label" [] [] false 4).invoked
        "label" ⟨some "o/r", some "frobnicated"⟩ = [] :=
  ⟨by decide, by rfl, by rfl⟩

/-- C7 (amended): for every payload whose `action` field is a string that
is not a known `WebhookEventAction` value (with a known event and a
repository present), `handle_webhook` raises `ValueError` and the whole
dispatch aborts: zero handlers are invoked, including `ANY_ACTION`
ones. -/
theorem unknown_action_raises (r : Registry) (en rn a : String)
    (raises : Nat → Bool) (hE : en ∈ validEvents) (hav : a ∉ validActions) :
    r.handle_webhook en ⟨some rn, some a⟩ raises =
        Except.error DispatchError.unknownAction
    ∧ r.invoked en ⟨some rn, some a⟩ = [] := by
  have hc := @candidateHandlers_unknownAction r en rn a
    ⟨some rn, some a⟩ hE rfl rfl hav
  constructor
  · unfold Registry.handle_webhook
    rw [hc]
    rfl
  · exact invoked_of_error hc

/-- Witness for C7 (amended): a wildcard handler for `"label"` and an
unknown action string. -/
theorem unknown_action_raises_witness :
    ("label" ∈ validEvents)
    ∧ ("zzz_not_an_action" ∉ validActions)
    ∧ ((Registry.empty.webhook "label" [] [] false 9).handle_webhook
          "label" ⟨some "x/y", some "zzz_not_an_action"⟩ (fun _ => false) =
        Except.error DispatchError.unknownAction
      ∧ (Registry.empty.webhook "label" [] [] false 9).invoked
          "label" ⟨some "x/y", some "zzz_not_an_action"⟩ = []) :=
  ⟨by decide, by decide,
    unknown_action_raises (Registry.empty.webhook "label" [] [] false 9)
      "label" "x/y" "zzz_not_an_action" (fun _ => false)
      (by decide) (by decide)⟩

/-- C8: Failure isolation.  When the invocation loop runs, every
candidate handler is attempted exactly once; a handler that throws is
caught (`except Exception`, decorators.py lines 118-119), the
non-throwing handler's invocation completes, and `handle_webhook`
returns normally. -/
theorem failure_isolation (r : Registry) (en : String) (p : Payload)
    (raises : Nat → Bool) (h1 h2 : Nat)
    (h1m : h1 ∈ r.invoked en p) (h2m : h2 ∈ r.invoked en p)
    (hr1 : raises h1 = true) (hr2 : raises h2 = false) :
    ∃ out, r.handle_webhook en p raises = Except.ok out
      ∧ (h1, true) ∈ out ∧ (h2, false) ∈ out
      ∧ ∀ a ∈ r.invoked en p, (a, raises a) ∈ out := by
  have hok : r.candidateHandlers en p = Except.ok (r.invoked en p) := by
    rcases hc : r.candidateHandlers en p with err | s
    · rw [invoked_of_error hc] at h1m
      cases h1m
    · rw [invoked_of_ok hc]
  refine ⟨invokeAll (r.invoked en p) raises,
    handle_webhook_ok_iff.mpr ⟨hok, rfl⟩, ?_, ?_, ?_⟩
  · exact List.mem_map.mpr ⟨h1, h1m, by rw [hr1]⟩
  · exact List.mem_map.mpr ⟨h2, h2m, by rw [hr2]⟩
  · exact fun a ham => List.mem_map.mpr ⟨a, ham, rfl⟩

/-- Witness for C8: handlers 1 and 2 in the same `(label, created,
ANY_REPO)` cell, handler 1 throwing. -/
theorem failure_isolation_witness :
    (1 ∈ ((Registry.empty.webhook "label" ["created"] [] false 1).webhook
        "label" ["created"] [] false 2).invoked "label"
        ⟨some "o/r", some "created"⟩
    ∧ 2 ∈ ((Registry.empty.webhook "label" ["created"] [] false 1).webhook
        "label" ["created"] [] false 2).invoked "label"
        ⟨some "o/r", some "created"⟩)
    ∧ ∃ out,
        ((Registry.empty.webhook "label" ["created"] [] false 1).webhook
          "label" ["created"] [] false 2).handle_webhook "label"
          ⟨some "o/r", some "created"⟩ (fun h => h == 1) = Except.ok out
        ∧ (1, true) ∈ out ∧ (2, false) ∈ out
        ∧ ∀ a ∈ ((Registry.empty.webhook "label" ["created"] [] false
            1).webhook "label" ["created"] [] false 2).invoked "label"
            ⟨some "o/r", some "created"⟩,
            (a, (fun h => h == 1) a) ∈ out :=
  ⟨⟨by decide, by decide⟩,
    failure_isolation
      ((Registry.empty.webhook "label" ["created"] [] false 1).webhook
        "label" ["created"] [] false 2)
      "label" ⟨some "o/r", some "created"⟩ (fun h => h == 1) 1 2
      (by decide) (by decide) (by decide) (by decide)⟩

/-- C9: Idempotent reset.  Replaying the same registration sequence after
a `reset()` yields identical dispatch outcomes as the first pass from the
initial state, and `reset()` is idempotent (a second call, including on
an already-empty registry, changes nothing). -/
theorem idempotent_reset (cs : List RegCall) (en : String) (p : Payload)
    (raises : Nat → Bool) :
    (applyCalls ((applyCalls Registry.empty cs).reset) cs).handle_webhook
        en p raises
      = (applyCalls Registry.empty cs).handle_webhook en p raises
    ∧ (∀ r : Registry, r.reset.reset = r.reset)
    ∧ Registry.empty.reset = Registry.empty :=
  ⟨rfl, fun _ => rfl, rfl⟩

/-- C10: a non-debug handler registered with a non-empty repositories
list (not containing the `"*"` sentinel) and no actions is stored only
in `tree[event][ANY_ACTION][repo]` cells, and `handle_webhook` reads the
`ANY_ACTION` row only at `ANY_REPO`; therefore such a handler is never
invoked, for any event name and payload. -/
theorem anyaction_repo_cell_unreachable (r : Registry) (e : String)
    (rs : List String) (h : Nat)
    (hfresh : ∀ k, h ∉ r.cells k)
    (hrs : rs ≠ []) (hstar : ANY_REPO ∉ rs) :
    (∀ k : TreeKey, h ∈ (r.webhook e [] rs false h).cells k →
      k.1 = e ∧ k.2.1 = ActionKey.anyAction ∧ k.2.2 ∈ rs)
    ∧ ∀ (en : String) (p : Payload),
        h ∉ (r.webhook e [] rs false h).invoked en p := by
  have hcell : ∀ k : TreeKey, h ∈ (r.webhook e [] rs false h).cells k →
      k.1 = e ∧ k.2.1 = ActionKey.anyAction ∧ k.2.2 ∈ rs := by
    intro k hk
    rcases mem_cells_webhook.mp hk with hk' | ⟨-, hk'⟩
    · exact absurd hk' (hfresh k)
    · rcases mem_regKeys.mp hk' with ⟨hfalse, -⟩ |
        ⟨-, (⟨hnil, -⟩ | ⟨rp, hrp, rfl⟩)⟩ | ⟨x, hx, -⟩
      · simp at hfalse
      · exact absurd hnil hrs
      · exact ⟨rfl, rfl, hrp⟩
      · cases hx
  refine ⟨hcell, ?_⟩
  intro en p hm
  rcases mem_invoked_cases hm with hm | ⟨a, rn, -, -, hm⟩ | ⟨rn, -, hm⟩
  · obtain ⟨-, -, hrep⟩ := hcell _ hm
    exact hstar hrep
  · rcases hm with hm | hm <;>
      obtain ⟨-, hkey, -⟩ := hcell _ hm <;> cases hkey
  · rcases hm with hm | hm <;>
      obtain ⟨-, hkey, -⟩ := hcell _ hm <;> cases hkey

/-- Witness for C10: handler 7 registered for `(label, no actions,
["owner/a"])` from the empty registry is stored only in the dead cell
and a matching dispatch does not invoke it. -/
theorem anyaction_repo_cell_unreachable_witness :
    (∀ k : TreeKey, 7 ∉ Registry.empty.cells k)
    ∧ (["owner/a"] : List String) ≠ []
    ∧ ANY_REPO ∉ (["owner/a"] : List String)
    ∧ ((∀ k : TreeKey,
          7 ∈ (Registry.empty.webhook "label" [] ["owner/a"] false
            7).cells k →
          k.1 = "label" ∧ k.2.1 = ActionKey.anyAction ∧
            k.2.2 ∈ (["owner/a"] : List String))
      ∧ ∀ (en : String) (p : Payload),
          7 ∉ (Registry.empty.webhook "label" [] ["owner/a"] false
            7).invoked en p) :=
  ⟨fun _ hk => List.not_mem_nil 7 hk, by decide, by decide,
    anyaction_repo_cell_unreachable Registry.empty "label" ["owner/a"] 7
      (fun _ hk => List.not_mem_nil 7 hk) (by decide) (by decide)⟩

end Octohook
